import Mathlib

/-!
Shallow embedding of the Sheildantic input-validation core
(`src/core.py`, `src/models.py`) in Lean 4, together with theorems
settling the frozen claims about its specification.

Python runtime values that flow through the pipeline are modelled by the
closed universe `Value` (None, str, int, bool, list, dict) — the shapes the
claims exercise.  The external collaborators are modelled as parameters:
`nh3.clean` becomes the `cleanPreserving`/`cleanStripped` functions carried
by the validator, and pydantic model construction becomes the `construct`
function (a spec-modelled reference implementation `constructModel` is
provided below).  Machine integers do not occur (Python ints are unbounded),
so `Int`/`Nat` are used directly.
-/

/-- Python runtime values reaching the pipeline (closed universe of the
shapes handled by `InputValidator._sanitize_value` that the claims touch). -/
inductive Value where
  | none : Value
  | str (s : String) : Value
  | int (n : Int) : Value
  | bool (b : Bool) : Value
  | list (vs : List Value) : Value
  | dict (es : List (String × Value)) : Value

/-- Python `v is None`. -/
def Value.isNone : Value → Bool
  | Value.none => true
  | _ => false

/- Python `repr` of a value (the element form used inside containers).
String escaping subtleties are not modelled: the claims never repr a string
containing a quote. -/
mutual

def pyRepr : Value → String
  | Value.none => "None"
  | Value.str s => "\x27" ++ s ++ "\x27"
  | Value.int n => toString n
  | Value.bool true => "True"
  | Value.bool false => "False"
  | Value.list vs => "[" ++ String.intercalate ", " (pyReprList vs) ++ "]"
  | Value.dict es => "\x7b" ++ String.intercalate ", " (pyReprDict es) ++ "\x7d"
termination_by structural v => v

def pyReprList : List Value → List String
  | [] => []
  | v :: rest => pyRepr v :: pyReprList rest
termination_by structural l => l

def pyReprDict : List (String × Value) → List String
  | [] => []
  | (k, v) :: rest => ("\x27" ++ k ++ "\x27: " ++ pyRepr v) :: pyReprDict rest
termination_by structural l => l

end

/-- Python `str` of a value (as used by `str(value)` and f-strings):
identical to `repr` except on strings, which are returned verbatim. -/
def pyStr : Value → String
  | Value.str s => s
  | v => pyRepr v

/-- Python `str.lower()` (ASCII, which covers every string the pipeline
compares). -/
def pyLower (s : String) : String :=
  String.mk (s.toList.map Char.toLower)

/-- Strip leading and trailing whitespace from a character list (Python
`str.strip()` as used by `int(s)`). -/
def stripChars (cs : List Char) : List Char :=
  ((cs.dropWhile Char.isWhitespace).reverse.dropWhile Char.isWhitespace).reverse

/-- Numeric value of a run of decimal digits. -/
def digitsToNat (cs : List Char) : Nat :=
  cs.foldl (fun acc c => acc * 10 + (c.toNat - 48)) 0

/-- Digit run with Python underscore rules: a single `_` may only stand
between two digits (`int("1_2")` is 12, `int("1__2")` and `int("1_")`
raise). -/
def pyDigitsTail : List Char → Bool
  | [] => true
  | '_' :: d :: rest => d.isDigit && pyDigitsTail rest
  | c :: rest => c.isDigit && pyDigitsTail rest

def pyDigitsOk : List Char → Bool
  | [] => false
  | c :: rest => c.isDigit && pyDigitsTail rest

/-- Python `int(s)` on a string: optional surrounding whitespace, optional
sign, digits (with legal underscores); `Option.none` models `ValueError`. -/
def pyIntOfString (s : String) : Option Int :=
  let t := stripChars s.toList
  let signAndDigits : Bool × List Char :=
    match t with
    | '-' :: rest => (true, rest)
    | '+' :: rest => (false, rest)
    | _ => (false, t)
  if pyDigitsOk signAndDigits.2 then
    let n := digitsToNat (signAndDigits.2.filter (fun c => c ≠ '_'))
    some (if signAndDigits.1 then -(n : Int) else (n : Int))
  else Option.none

/-- Python `int(item)` succeeds: true ints and bools convert (`bool` is an
`int` subclass), strings via `pyIntOfString`; `None` and containers raise
`TypeError`. -/
def pyIntConvertible : Value → Bool
  | Value.str s => (pyIntOfString s).isSome
  | Value.int _ => true
  | Value.bool _ => true
  | _ => false

/-- Python `isinstance(v, int)`: true for ints and bools (`bool` subclasses
`int`). -/
def isInstInt : Value → Bool
  | Value.int _ => true
  | Value.bool _ => true
  | _ => false

/-- `models.SanitizationConfig`: the frozen pydantic model.  Its declared
fields are exactly these seven — there is no `max_field_size` field.  Python
sets are modelled as lists (only presence matters here). -/
structure SanitizationConfig where
  tags : Option (List String) := Option.none
  attributes : Option (List (String × List String)) := Option.none
  url_schemes : Option (List String) := Option.none
  strip_comments : Bool := true
  link_rel : Option String := some "noopener noreferrer"
  clean_content_tags : Option (List String) := Option.none
  generic_attribute_prefixes : Option (List String) := Option.none

/-- `self.config.model_dump()` dumps exactly the seven declared fields
(pydantic ignores extra constructor kwargs by default, and the model is
frozen), so `ammonia_params.pop('max_field_size', None)` in
`_sanitize_value` always yields `None`.  This is the faithful translation of
that pop. -/
def SanitizationConfig.popMaxFieldSize (_ : SanitizationConfig) : Option Nat :=
  Option.none

/-- Shape of a declared schema field, as classified by
`InputValidator._identify_list_fields` and the annotation tests in
`validate` (`annotation is bool`, `get_origin(annotation) is list`,
`__args__[0] is int`). -/
inductive FieldType where
  | fStr : FieldType
  | fInt : FieldType
  | fBool : FieldType
  | fListInt : FieldType
  | fListStr : FieldType
  deriving DecidableEq

/-- `get_origin(annotation) is list`. -/
def isListField : FieldType → Bool
  | FieldType.fListInt => true
  | FieldType.fListStr => true
  | _ => false

/-- One entry of `model.model_fields`: annotation shape, `is_required()`,
and the default used by pydantic when the field is absent. -/
structure FieldInfo where
  ftype : FieldType
  required : Bool
  defaultValue : Value := Value.none

/-- The pydantic model class seen through `model.model_fields`
(name → field info, in declaration order; keys are unique as in a dict). -/
structure Schema where
  fields : List (String × FieldInfo)

/-- The raw mapping passed to `validate`: either a `MultiDict` (ordered
key/value pairs, keys may repeat) or a plain single-valued dict. -/
inductive RawData where
  | multi (entries : List (String × Value)) : RawData
  | single (entries : List (String × Value)) : RawData

/-- `raw_data.get(field)`: first value for the key, `None` when absent. -/
def rawGet (data : RawData) (field : String) : Value :=
  match data with
  | RawData.multi entries =>
      match entries.find? (fun p => p.1 == field) with
      | some p => p.2
      | Option.none => Value.none
  | RawData.single entries =>
      match entries.lookup field with
      | some v => v
      | Option.none => Value.none

/-- `field in raw_data`. -/
def rawContains (data : RawData) (field : String) : Bool :=
  match data with
  | RawData.multi entries => entries.any (fun p => p.1 == field)
  | RawData.single entries => (entries.lookup field).isSome

/-- `InputValidator._get_multi_values`: all values for the key from a
`MultiDict`; from a plain dict, the value itself when it is a list, a
singleton otherwise, and `[]` for absent/None. -/
def getMultiValues (data : RawData) (field : String) : List Value :=
  match data with
  | RawData.multi entries =>
      entries.filterMap (fun p => if p.1 == field then some p.2 else Option.none)
  | RawData.single entries =>
      match entries.lookup field with
      | some (Value.list vs) => vs
      | some Value.none => []
      | some v => [v]
      | Option.none => []

/-- `InputValidator._parse_bool`. -/
def parseBool (v : Value) : Value :=
  match v with
  | Value.str s =>
      let l := pyLower s
      if l = "true" ∨ l = "1" ∨ l = "yes" then Value.bool true
      else if l = "false" ∨ l = "0" ∨ l = "no" then Value.bool false
      else Value.str s
  | Value.bool b => Value.bool b
  | Value.int n => Value.bool (n ≠ 0)
  | other => Value.str (pyStr other)

/- `InputValidator._sanitize_value`, parameterised by the `nh3.clean`
collaborator (`clean`) and the popped `max_field_size` (`maxSize`).
A raised `ValueError` is modelled as `Except.error` with its message. -/
mutual

def sanitizeValue (clean : String → String) (maxSize : Option Nat) : Value → Except String Value
  | Value.none => Except.ok Value.none
  | Value.str s =>
      let cleaned := clean s
      match maxSize with
      | some m =>
          if m ≠ 0 ∧ m < cleaned.length then
            Except.error ("Field exceeds maximum size " ++ toString m)
          else Except.ok (Value.str cleaned)
      | Option.none => Except.ok (Value.str cleaned)
  | Value.int n => Except.ok (Value.int n)
  | Value.bool b => Except.ok (Value.bool b)
  | Value.list vs => (sanitizeValueList clean maxSize vs).map Value.list
  | Value.dict es => (sanitizeValueDict clean maxSize es).map Value.dict
termination_by structural v => v

def sanitizeValueList (clean : String → String) (maxSize : Option Nat) :
    List Value → Except String (List Value)
  | [] => Except.ok []
  | v :: rest =>
      match sanitizeValue clean maxSize v with
      | Except.error e => Except.error e
      | Except.ok w => (sanitizeValueList clean maxSize rest).map (fun ws => w :: ws)
termination_by structural l => l

def sanitizeValueDict (clean : String → String) (maxSize : Option Nat) :
    List (String × Value) → Except String (List (String × Value))
  | [] => Except.ok []
  | (k, v) :: rest =>
      match sanitizeValue clean maxSize v with
      | Except.error e => Except.error e
      | Except.ok w => (sanitizeValueDict clean maxSize rest).map (fun ws => (k, w) :: ws)
termination_by structural l => l

end

/- `InputValidator._clean_for_model`, parameterised by the stripped-mode
cleaner (`nh3.clean(value, tags=set())`). -/
mutual

def cleanForModel (cleanStripped : String → String) : Value → Value
  | Value.str s => Value.str (cleanStripped s)
  | Value.list vs => Value.list (cleanForModelList cleanStripped vs)
  | Value.dict es => Value.dict (cleanForModelDict cleanStripped es)
  | v => v
termination_by structural v => v

def cleanForModelList (cleanStripped : String → String) : List Value → List Value
  | [] => []
  | v :: rest => cleanForModel cleanStripped v :: cleanForModelList cleanStripped rest
termination_by structural l => l

def cleanForModelDict (cleanStripped : String → String) :
    List (String × Value) → List (String × Value)
  | [] => []
  | (k, v) :: rest => (k, cleanForModel cleanStripped v) :: cleanForModelDict cleanStripped rest
termination_by structural l => l

end

/-- `models.ValidationErrorDetail`.  Python `None` values are `Value.none`. -/
structure ValidationErrorDetail where
  field : String
  message : String
  input_value : Value
  sanitized_value : Value := Value.none

/-- A model instance produced by pydantic construction: field name → typed
value, in declaration order. -/
abbrev ModelInst := List (String × Value)

/-- `models.ValidationResult`. -/
structure ValidationResult where
  is_valid : Bool
  model : Option ModelInst := Option.none
  errors : List ValidationErrorDetail := []
  sanitized_data : List (String × Value) := []

/-- One segment of a pydantic error location path (`error['loc']`): a field
name or a list index. -/
inductive LocStep where
  | fld (s : String) : LocStep
  | idx (n : Nat) : LocStep
  deriving DecidableEq

/-- Python `str(part)` on a loc segment. -/
def LocStep.stepStr : LocStep → String
  | LocStep.fld s => s
  | LocStep.idx n => toString n

/-- One entry of `e.errors()` from a caught pydantic `ValidationError`. -/
structure PydanticError where
  loc : List LocStep
  msg : String

/-- `".".join(str(part) for part in loc)`. -/
def dotJoin (loc : List LocStep) : String :=
  String.intercalate "." (loc.map LocStep.stepStr)

/-- `field_name.split(".")[0]`: the characters before the first dot. -/
def firstDotSegment (s : String) : String :=
  String.mk (s.toList.takeWhile (fun c => c ≠ '.'))

/-- Python `\w` on ASCII: letters, digits, underscore. -/
def isWordChar (c : Char) : Bool :=
  c.isAlphanum || c = '_'

/-- Leftmost match of the pattern used in `validate`, a newline, a nonempty
word, a newline, returning the word (`re.search(r"\n(\w+)\n", msg)`). -/
def regexWordBetweenNewlines (s : String) : Option String :=
  go s.toList
where
  go : List Char → Option String
    | [] => Option.none
    | '\n' :: rest =>
        let w := rest.takeWhile isWordChar
        if w ≠ [] ∧ (rest.drop w.length).head? = some '\n' then some (String.mk w)
        else go rest
    | _ :: rest => go rest

/-- The `except ValidationError` branch of `validate`, per pydantic error:
derive the reported `field` from `error['loc']` (joining all segments with
dots; empty loc falls back to a word scraped from the message or
`"general"`), then attach raw/sanitized context looked up by the first
dot-segment. -/
def mapPydanticError (raw : RawData) (sanitized : List (String × Value))
    (e : PydanticError) : ValidationErrorDetail :=
  let fieldName :=
    if e.loc.isEmpty then
      match regexWordBetweenNewlines e.msg with
      | some w => w
      | Option.none => "general"
    else
      let j := dotJoin e.loc
      if j = "general" then
        match regexWordBetweenNewlines e.msg with
        | some w => w
        | Option.none => "general"
      else j
  let base := firstDotSegment fieldName
  { field := fieldName
    message := e.msg
    input_value := if fieldName = "general" then Value.none else rawGet raw base
    sanitized_value :=
      if fieldName = "general" then Value.none
      else
        match sanitized.lookup base with
        | some v => v
        | Option.none => Value.none }

/-- `core.InputValidator`: the schema (from `model.model_fields`), the
frozen `SanitizationConfig`, and the external collaborators — `nh3.clean`
under the config's policy (`cleanPreserving`), `nh3.clean(·, tags=set())`
(`cleanStripped`), and pydantic construction `self.model(**model_data)`
(`construct`, erroring with the list `e.errors()`). -/
structure InputValidator where
  schema : Schema
  config : SanitizationConfig
  cleanPreserving : String → String
  cleanStripped : String → String
  construct : List (String × Value) → Except (List PydanticError) ModelInst

/-- The body of `sanitize_input`, iterating the declared fields in order.
List-typed fields always contribute `[self._sanitize_value(v) for v in
values]`; other fields contribute only when present with a non-None value —
bool-annotated ones through `_parse_bool`, the rest through
`_sanitize_value`.  A raised `ValueError` aborts the whole pass. -/
def sanitizeFields (V : InputValidator) (raw : RawData) :
    List (String × FieldInfo) → Except String (List (String × Value))
  | [] => Except.ok []
  | (f, i) :: rest =>
      if isListField i.ftype then
        match sanitizeValueList V.cleanPreserving V.config.popMaxFieldSize
            (getMultiValues raw f) with
        | Except.error e => Except.error e
        | Except.ok svs =>
            (sanitizeFields V raw rest).map (fun s => (f, Value.list svs) :: s)
      else if rawContains raw f then
        if (rawGet raw f).isNone then sanitizeFields V raw rest
        else if i.ftype = FieldType.fBool then
          (sanitizeFields V raw rest).map (fun s => (f, parseBool (rawGet raw f)) :: s)
        else
          match sanitizeValue V.cleanPreserving V.config.popMaxFieldSize (rawGet raw f) with
          | Except.error e => Except.error e
          | Except.ok sv => (sanitizeFields V raw rest).map (fun s => (f, sv) :: s)
      else sanitizeFields V raw rest

/-- `InputValidator.sanitize_input`. -/
def sanitizeInput (V : InputValidator) (raw : RawData) :
    Except String (List (String × Value)) :=
  sanitizeFields V raw V.schema.fields

/-- The per-field pre-checks of `validate` run over every declared field
present in the sanitized mapping: unparseable boolean strings, and, for
`list[int]` fields, every list element that is neither an `int` nor
convertible by `int(item)` (recorded with its index).  Errors are gathered
across all fields before `validate` decides. -/
def typeCheckErrors (V : InputValidator) (raw : RawData)
    (sanitized : List (String × Value)) : List ValidationErrorDetail :=
  go V.schema.fields
where
  validBools : List String := ["true", "1", "yes", "false", "0", "no"]
  fieldErrors (raw : RawData) (sanitized : List (String × Value))
      (f : String) (i : FieldInfo) : List ValidationErrorDetail :=
    match sanitized.lookup f with
    | Option.none => []
    | some v =>
        if i.ftype = FieldType.fBool then
          match v with
          | Value.str s =>
              if pyLower s ∈ validBools then []
              else
                [{ field := f
                   message := "Value \x27" ++ s ++ "\x27 could not be parsed to a boolean"
                   input_value := rawGet raw f
                   sanitized_value := v }]
          | _ => []
        else if isListField i.ftype then
          match v with
          | Value.list items =>
              if i.ftype = FieldType.fListInt then
                items.enum.filterMap (fun p =>
                  if isInstInt p.2 then Option.none
                  else if pyIntConvertible p.2 then Option.none
                  else some
                    { field := f
                      message := "Value \x27" ++ pyStr p.2 ++ "\x27 at index "
                        ++ toString p.1 ++ " could not be parsed to an integer"
                      input_value := rawGet raw f
                      sanitized_value := v })
              else []
          | _ => []
        else []
  go : List (String × FieldInfo) → List ValidationErrorDetail
    | [] => []
    | (f, i) :: rest => fieldErrors raw sanitized f i ++ go rest

/-- `InputValidator._check_missing_required_fields`: a `Field required`
error for every declared required field whose name is absent from the
(stripped) model data. -/
def missingRequiredErrors (sc : Schema) (data : List (String × Value)) :
    List ValidationErrorDetail :=
  sc.fields.filterMap (fun p =>
    if p.2.required ∧ (data.lookup p.1).isNone then
      some { field := p.1
             message := "Field required"
             input_value := Value.none
             sanitized_value := Value.none }
    else Option.none)

/-- `model_data = {k: self._clean_for_model(v) for k, v in sanitized.items()}`. -/
def modelDataOf (V : InputValidator) (sanitized : List (String × Value)) :
    List (String × Value) :=
  sanitized.map (fun kv => (kv.1, cleanForModel V.cleanStripped kv.2))

/-- `InputValidator.validate`: first-pass sanitization (a `ValueError` there
reaches the handler with `sanitized` unbound, so `sanitized_data` resets to
empty and a single catch-all `general` error is reported); fail-collected
type pre-checks; stripped second pass; missing-required check; pydantic
construction, whose `ValidationError` is routed through
`mapPydanticError`. -/
def validate (V : InputValidator) (raw : RawData) : ValidationResult :=
  match sanitizeInput V raw with
  | Except.error msg =>
      { is_valid := false
        model := Option.none
        errors := [{ field := "general", message := msg
                     input_value := Value.none, sanitized_value := Value.none }]
        sanitized_data := [] }
  | Except.ok sanitized =>
      let tErrs := typeCheckErrors V raw sanitized
      if tErrs.isEmpty then
        let modelData := modelDataOf V sanitized
        let mErrs := missingRequiredErrors V.schema modelData
        if mErrs.isEmpty then
          match V.construct modelData with
          | Except.ok m =>
              { is_valid := true, model := some m, errors := []
                sanitized_data := sanitized }
          | Except.error pErrs =>
              { is_valid := false, model := Option.none
                errors := pErrs.map (mapPydanticError raw sanitized)
                sanitized_data := sanitized }
        else
          { is_valid := false, model := Option.none, errors := mErrs
            sanitized_data := sanitized }
      else
        { is_valid := false, model := Option.none, errors := tErrs
          sanitized_data := sanitized }

/-- Modelled from the spec: the schema-construction collaborator (pydantic)
is not part of this repository.  Per the collaborator contract it turns a
coerced mapping into a typed instance or a structured list of errors "each
with a location path and message"; per section 4.5 a location path is "field
name, then possibly list indices".  String-to-int lax coercion (scenario A
coerces `["2","3"]` to `[2,3]`): sign and decimal digits, surrounding
whitespace tolerated; pydantic v2 rejects bools where ints are expected. -/
def pydParseInt (s : String) : Option Int :=
  let t := stripChars s.toList
  let signAndDigits : Bool × List Char :=
    match t with
    | '-' :: rest => (true, rest)
    | '+' :: rest => (false, rest)
    | _ => (false, t)
  if signAndDigits.2 ≠ [] ∧ signAndDigits.2.all Char.isDigit then
    some (if signAndDigits.1 then -(digitsToNat signAndDigits.2 : Int)
          else (digitsToNat signAndDigits.2 : Int))
  else Option.none

/-- Modelled from the spec: pydantic coercion of one value to `int`. -/
def coerceInt (v : Value) : Except String Value :=
  match v with
  | Value.int n => Except.ok (Value.int n)
  | Value.str s =>
      match pydParseInt s with
      | some n => Except.ok (Value.int n)
      | Option.none =>
          Except.error "Input should be a valid integer, unable to parse string as an integer"
  | _ => Except.error "Input should be a valid integer"

/-- Modelled from the spec: pydantic coercion of one value to `str`
(pydantic v2 does not stringify non-strings). -/
def coerceStr (v : Value) : Except String Value :=
  match v with
  | Value.str s => Except.ok (Value.str s)
  | _ => Except.error "Input should be a valid string"

/-- Modelled from the spec: pydantic coercion of one value to `bool`. -/
def coerceBool (v : Value) : Except String Value :=
  match v with
  | Value.bool b => Except.ok (Value.bool b)
  | Value.str s =>
      let l := pyLower s
      if l ∈ ["true", "t", "yes", "y", "on", "1"] then Except.ok (Value.bool true)
      else if l ∈ ["false", "f", "no", "n", "off", "0"] then Except.ok (Value.bool false)
      else Except.error "Input should be a valid boolean, unable to interpret input"
  | Value.int n =>
      if n = 0 then Except.ok (Value.bool false)
      else if n = 1 then Except.ok (Value.bool true)
      else Except.error "Input should be a valid boolean, unable to interpret input"
  | _ => Except.error "Input should be a valid boolean"

/-- Modelled from the spec: coerce the elements of a `list[_]` field,
reporting every failing element under location `(field, index)`. -/
def coerceListItems (itemCoerce : Value → Except String Value) (f : String) :
    Nat → List Value → List PydanticError × List Value
  | _, [] => ([], [])
  | k, v :: rest =>
      let tail := coerceListItems itemCoerce f (k + 1) rest
      match itemCoerce v with
      | Except.ok w => (tail.1, w :: tail.2)
      | Except.error m => ({ loc := [LocStep.fld f, LocStep.idx k], msg := m } :: tail.1, tail.2)

/-- Modelled from the spec: coerce one field's value per its declared
shape. -/
def coerceField (f : String) (i : FieldInfo) (v : Value) :
    Except (List PydanticError) Value :=
  match i.ftype with
  | FieldType.fStr =>
      match coerceStr v with
      | Except.ok w => Except.ok w
      | Except.error m => Except.error [{ loc := [LocStep.fld f], msg := m }]
  | FieldType.fInt =>
      match coerceInt v with
      | Except.ok w => Except.ok w
      | Except.error m => Except.error [{ loc := [LocStep.fld f], msg := m }]
  | FieldType.fBool =>
      match coerceBool v with
      | Except.ok w => Except.ok w
      | Except.error m => Except.error [{ loc := [LocStep.fld f], msg := m }]
  | FieldType.fListInt =>
      match v with
      | Value.list vs =>
          let r := coerceListItems coerceInt f 0 vs
          if r.1.isEmpty then Except.ok (Value.list r.2) else Except.error r.1
      | _ => Except.error [{ loc := [LocStep.fld f], msg := "Input should be a valid list" }]
  | FieldType.fListStr =>
      match v with
      | Value.list vs =>
          let r := coerceListItems coerceStr f 0 vs
          if r.1.isEmpty then Except.ok (Value.list r.2) else Except.error r.1
      | _ => Except.error [{ loc := [LocStep.fld f], msg := "Input should be a valid list" }]

/-- Modelled from the spec: `self.model(**model_data)`.  Field errors are
collected across all declared fields (a caught `ValidationError` always
carries at least one error); absent optional fields take their declared
defaults. -/
def constructModel (sc : Schema) (data : List (String × Value)) :
    Except (List PydanticError) ModelInst :=
  go sc.fields
where
  go : List (String × FieldInfo) → Except (List PydanticError) ModelInst
    | [] => Except.ok []
    | (f, i) :: rest =>
        let this : Except (List PydanticError) (String × Value) :=
          match data.lookup f with
          | some v => (coerceField f i v).map (fun w => (f, w))
          | Option.none =>
              if i.required then
                Except.error [{ loc := [LocStep.fld f], msg := "Field required" }]
              else Except.ok (f, i.defaultValue)
        match this, go rest with
        | Except.ok kv, Except.ok m => Except.ok (kv :: m)
        | Except.ok _, Except.error es => Except.error es
        | Except.error es, Except.ok _ => Except.error es
        | Except.error es, Except.error es2 => Except.error (es ++ es2)

/-- Build a validator over a schema from the two cleaner collaborators,
with the default (all-optional) `SanitizationConfig` and the spec-modelled
pydantic constructor. -/
def mkValidator (sc : Schema) (cp cs : String → String) : InputValidator :=
  { schema := sc, config := {}, cleanPreserving := cp, cleanStripped := cs
    construct := constructModel sc }

/-- The `TestUser` schema of the repository's tests (spec scenario A):
`name: str` (required), `friends: list[int]` (required), `active: bool =
True`, `bio: str = ""`. -/
def testUserSchema : Schema :=
  { fields :=
      [("name", { ftype := FieldType.fStr, required := true }),
       ("friends", { ftype := FieldType.fListInt, required := true }),
       ("active", { ftype := FieldType.fBool, required := false
                    defaultValue := Value.bool true }),
       ("bio", { ftype := FieldType.fStr, required := false
                 defaultValue := Value.str "" })] }

/-- `TestUser` validator whose cleaners are the identity (nh3 is the
identity on markup-free strings). -/
def testUserValidator : InputValidator := mkValidator testUserSchema id id

/-- Single-field schema `friends: list[int]` (required). -/
def friendsSchema : Schema :=
  { fields := [("friends", { ftype := FieldType.fListInt, required := true })] }

def friendsValidator : InputValidator := mkValidator friendsSchema id id

/-- Single-field schema `name: str` (required). -/
def nameOnlySchema : Schema :=
  { fields := [("name", { ftype := FieldType.fStr, required := true })] }

def nameOnlyValidator : InputValidator := mkValidator nameOnlySchema id id

/-- Single-field schema `active: bool` (required). -/
def boolOnlySchema : Schema :=
  { fields := [("active", { ftype := FieldType.fBool, required := true })] }

/-- A concrete stand-in for the `nh3.clean` collaborator used by
counterexamples: it removes angle brackets, so it alters every markup
string. -/
def dropAngleChars (s : String) : String :=
  String.mk (s.toList.filter (fun c => c != '<' && c != '>'))

/-- Validator over `active: bool` whose preserving cleaner is
`dropAngleChars`. -/
def boolOnlyValidator : InputValidator :=
  mkValidator boolOnlySchema dropAngleChars dropAngleChars

set_option maxRecDepth 100000

/-- A key absent from the raw mapping reads as `None`. -/
theorem rawGet_isNone_of_not_contains (raw : RawData) (f : String)
    (h : rawContains raw f = false) : (rawGet raw f).isNone = true := by
  cases raw with
  | multi entries =>
      simp only [rawContains, List.any_eq_false] at h
      simp only [rawGet]
      cases hf : entries.find? (fun p => p.1 == f) with
      | none => rfl
      | some p =>
          exact absurd (List.find?_some hf)
            (by simpa using h p (List.mem_of_find?_eq_some hf))
  | single entries =>
      simp only [rawContains] at h
      simp only [rawGet]
      cases hf : entries.lookup f with
      | none => rfl
      | some v => rw [hf] at h; simp at h

/- Helper development: because the popped size limit is always `None` in
this repository (see `SanitizationConfig.popMaxFieldSize`), the first
sanitization pass never raises; `sanitizeValuePure` and
`sanitizeFieldsPure` are its exception-free mirrors, used to reason about
its output. -/
mutual

def sanitizeValuePure (clean : String → String) : Value → Value
  | Value.none => Value.none
  | Value.str s => Value.str (clean s)
  | Value.int n => Value.int n
  | Value.bool b => Value.bool b
  | Value.list vs => Value.list (sanitizeValuePureList clean vs)
  | Value.dict es => Value.dict (sanitizeValuePureDict clean es)
termination_by structural v => v

def sanitizeValuePureList (clean : String → String) : List Value → List Value
  | [] => []
  | v :: rest => sanitizeValuePure clean v :: sanitizeValuePureList clean rest
termination_by structural l => l

def sanitizeValuePureDict (clean : String → String) :
    List (String × Value) → List (String × Value)
  | [] => []
  | (k, v) :: rest => (k, sanitizeValuePure clean v) :: sanitizeValuePureDict clean rest
termination_by structural l => l

end

mutual

/-- With no size limit popped (the repository case), `_sanitize_value`
always succeeds, with `sanitizeValuePure` as its value. -/
theorem sanitizeValue_eq_pure (clean : String → String) :
    ∀ v, sanitizeValue clean Option.none v = Except.ok (sanitizeValuePure clean v)
  | Value.none => rfl
  | Value.str s => rfl
  | Value.int n => rfl
  | Value.bool b => rfl
  | Value.list vs => by
      rw [sanitizeValue, sanitizeValueList_eq_pure clean vs]
      rfl
  | Value.dict es => by
      rw [sanitizeValue, sanitizeValueDict_eq_pure clean es]
      rfl
termination_by structural v => v

theorem sanitizeValueList_eq_pure (clean : String → String) :
    ∀ vs, sanitizeValueList clean Option.none vs
      = Except.ok (sanitizeValuePureList clean vs)
  | [] => rfl
  | v :: rest => by
      rw [sanitizeValueList, sanitizeValue_eq_pure clean v,
        sanitizeValueList_eq_pure clean rest]
      rfl
termination_by structural l => l

theorem sanitizeValueDict_eq_pure (clean : String → String) :
    ∀ es, sanitizeValueDict clean Option.none es
      = Except.ok (sanitizeValuePureDict clean es)
  | [] => rfl
  | (k, v) :: rest => by
      rw [sanitizeValueDict, sanitizeValue_eq_pure clean v,
        sanitizeValueDict_eq_pure clean rest]
      rfl
termination_by structural l => l

end

/-- Exception-free mirror of the whole first pass (`sanitize_input`). -/
def sanitizeFieldsPure (V : InputValidator) (raw : RawData) :
    List (String × FieldInfo) → List (String × Value)
  | [] => []
  | (f, i) :: rest =>
      if isListField i.ftype then
        (f, Value.list (sanitizeValuePureList V.cleanPreserving (getMultiValues raw f)))
          :: sanitizeFieldsPure V raw rest
      else if rawContains raw f = true ∧ (rawGet raw f).isNone = false then
        (f, if i.ftype = FieldType.fBool then parseBool (rawGet raw f)
            else sanitizeValuePure V.cleanPreserving (rawGet raw f))
          :: sanitizeFieldsPure V raw rest
      else sanitizeFieldsPure V raw rest

/-- The first pass of the repository validator never raises: it returns
exactly its exception-free mirror. -/
theorem sanitizeFields_eq_pure (V : InputValidator) (raw : RawData) :
    ∀ fs, sanitizeFields V raw fs = Except.ok (sanitizeFieldsPure V raw fs) := by
  intro fs
  induction fs with
  | nil => rfl
  | cons p rest ih =>
      obtain ⟨f, i⟩ := p
      rw [sanitizeFields, sanitizeFieldsPure]
      by_cases hl : isListField i.ftype
      · simp only [hl, if_true, SanitizationConfig.popMaxFieldSize,
          sanitizeValueList_eq_pure, ih, Except.map]
      · by_cases hc : rawContains raw f
        · by_cases hn : (rawGet raw f).isNone
          · simp [hl, hc, hn, ih]
          · by_cases hb : i.ftype = FieldType.fBool
            · simp [hc, hn, hb, ih, Except.map, isListField]
            · simp [hl, hc, hn, hb, ih, Except.map,
                SanitizationConfig.popMaxFieldSize, sanitizeValue_eq_pure]
        · have hn := rawGet_isNone_of_not_contains raw f (by simpa using hc)
          simp [hl, hc, hn, ih]

/-- `sanitize_input` never raises in this repository and equals its
exception-free mirror. -/
theorem sanitizeInput_eq_pure (V : InputValidator) (raw : RawData) :
    sanitizeInput V raw = Except.ok (sanitizeFieldsPure V raw V.schema.fields) :=
  sanitizeFields_eq_pure V raw V.schema.fields

/-- Association-list lookup misses when no key matches. -/
theorem lookup_eq_none_of_not_mem {β : Type} (f : String) :
    ∀ l : List (String × β), (∀ kv ∈ l, kv.1 ≠ f) → l.lookup f = Option.none := by
  intro l
  induction l with
  | nil => intro _; rfl
  | cons kv rest ih =>
      intro h
      obtain ⟨k, b⟩ := kv
      have hk : k ≠ f := h (k, b) (List.mem_cons_self _ _)
      have : (f == k) = false := by
        simp [BEq.beq]
        exact fun e => hk e.symm
      simp only [List.lookup, this]
      exact ih (fun kv hkv => h kv (List.mem_cons_of_mem _ hkv))

/-- Every key in the output of the first pass is a declared field name. -/
theorem sanitizeFieldsPure_keys (V : InputValidator) (raw : RawData) :
    ∀ fs, ∀ kv ∈ sanitizeFieldsPure V raw fs, kv.1 ∈ fs.map Prod.fst := by
  intro fs
  induction fs with
  | nil => intro kv hkv; cases hkv
  | cons p rest ih =>
      intro kv hkv
      obtain ⟨f, i⟩ := p
      rw [sanitizeFieldsPure] at hkv
      by_cases hl : isListField i.ftype
      · rw [if_pos hl] at hkv
        rcases List.mem_cons.mp hkv with h | h
        · subst h; simp
        · exact List.mem_cons_of_mem _ (ih kv h)
      · rw [if_neg hl] at hkv
        by_cases hp : rawContains raw f = true ∧ (rawGet raw f).isNone = false
        · rw [if_pos hp] at hkv
          rcases List.mem_cons.mp hkv with h | h
          · subst h; simp
          · exact List.mem_cons_of_mem _ (ih kv h)
        · rw [if_neg hp] at hkv
          exact List.mem_cons_of_mem _ (ih kv hkv)

/-- Inversion for the first pass: with distinct declared names, the entry
recorded for a declared field is exactly what its branch of
`sanitize_input` computes (list fields are always present as sanitized
lists; boolean fields present with a non-None raw value hold the
`_parse_bool` image; other present fields hold the `_sanitize_value`
image; remaining fields are absent). -/
theorem sanitizeFieldsPure_lookup (V : InputValidator) (raw : RawData) :
    ∀ fs (f : String) (i : FieldInfo),
      (fs.map Prod.fst).Nodup → (f, i) ∈ fs →
      (sanitizeFieldsPure V raw fs).lookup f =
        (if isListField i.ftype then
          some (Value.list (sanitizeValuePureList V.cleanPreserving (getMultiValues raw f)))
        else if (rawGet raw f).isNone then Option.none
        else if i.ftype = FieldType.fBool then some (parseBool (rawGet raw f))
        else some (sanitizeValuePure V.cleanPreserving (rawGet raw f))) := by
  intro fs
  induction fs with
  | nil => intro f i _ hmem; cases hmem
  | cons p rest ih =>
      intro f i hnodup hmem
      obtain ⟨g, j⟩ := p
      rw [List.map_cons, List.nodup_cons] at hnodup
      obtain ⟨hg, hnodup'⟩ := hnodup
      have hg' : g ∉ rest.map Prod.fst := hg
      rcases List.mem_cons.mp hmem with h | h
      · rw [Prod.mk.injEq] at h
        obtain ⟨hf, hi⟩ := h
        subst hf; subst hi
        rw [sanitizeFieldsPure]
        by_cases hl : isListField i.ftype
        · simp [hl, List.lookup]
        · rw [if_neg hl]
          by_cases hp : rawContains raw f = true ∧ (rawGet raw f).isNone = false
          · rw [if_pos hp]
            simp only [hl, hp.2, List.lookup, beq_self_eq_true, if_false, Bool.false_eq_true]
            exact apply_ite some (i.ftype = FieldType.fBool) _ _
          · rw [if_neg hp]
            have hn : (rawGet raw f).isNone = true := by
              by_cases hc : rawContains raw f
              · rcases Bool.eq_false_or_eq_true (rawGet raw f).isNone with h1 | h0
                · exact h1
                · exact absurd ⟨hc, h0⟩ hp
              · exact rawGet_isNone_of_not_contains raw f (by simpa using hc)
            rw [lookup_eq_none_of_not_mem f (sanitizeFieldsPure V raw rest)
              (fun kv hkv => by
                intro he
                exact hg' (he ▸ sanitizeFieldsPure_keys V raw rest kv hkv))]
            simp [hl, hn]
      · have hfmem : f ∈ rest.map Prod.fst := List.mem_map_of_mem Prod.fst h
        have hf : f ≠ g := fun he => hg' (he ▸ hfmem)
        have hbeq : (f == g) = false := by
          simp only [beq_eq_false_iff_ne, ne_eq]
          exact hf
        rw [sanitizeFieldsPure]
        by_cases hl : isListField j.ftype
        · rw [if_pos hl]
          simp only [List.lookup, hbeq]
          exact ih f i hnodup' h
        · rw [if_neg hl]
          by_cases hp : rawContains raw g = true ∧ (rawGet raw g).isNone = false
          · rw [if_pos hp]
            simp only [List.lookup, hbeq]
            exact ih f i hnodup' h
          · rw [if_neg hp]
            exact ih f i hnodup' h

/-- A declared field contributes nothing to `sanitize_input` exactly when it
is not list-typed and its raw value reads as `None`. -/
def fieldSkipped (raw : RawData) (p : String × FieldInfo) : Bool :=
  !isListField p.2.ftype && (rawGet raw p.1).isNone

/-- The first pass yields an empty mapping exactly when every declared
field is skipped. -/
theorem sanitizeFieldsPure_eq_nil_iff (V : InputValidator) (raw : RawData) :
    ∀ fs, sanitizeFieldsPure V raw fs = [] ↔ fs.all (fieldSkipped raw) = true := by
  intro fs
  induction fs with
  | nil => simp [sanitizeFieldsPure]
  | cons p rest ih =>
      obtain ⟨f, i⟩ := p
      rw [sanitizeFieldsPure, List.all_cons]
      by_cases hl : isListField i.ftype
      · simp [hl, fieldSkipped]
      · rw [if_neg hl]
        by_cases hp : rawContains raw f = true ∧ (rawGet raw f).isNone = false
        · simp [hp.1, hp.2, fieldSkipped, hl]
        · have hn : (rawGet raw f).isNone = true := by
            by_cases hc : rawContains raw f
            · rcases Bool.eq_false_or_eq_true (rawGet raw f).isNone with h1 | h0
              · exact h1
              · exact absurd ⟨hc, h0⟩ hp
            · exact rawGet_isNone_of_not_contains raw f (by simpa using hc)
          rw [if_neg hp]
          simp [fieldSkipped, hl, hn, ih]

/-- Keys survive the stripped second pass unchanged. -/
theorem modelDataOf_lookup (V : InputValidator) :
    ∀ (s : List (String × Value)) (f : String),
      (modelDataOf V s).lookup f = (s.lookup f).map (cleanForModel V.cleanStripped) := by
  intro s
  induction s with
  | nil => intro f; rfl
  | cons kv rest ih =>
      intro f
      obtain ⟨k, v⟩ := kv
      rw [modelDataOf] at *
      simp only [List.map_cons, List.lookup]
      cases hb : f == k with
      | true => rfl
      | false => exact ih f

/-- Every error from the missing-required check names a field absent from
the checked data. -/
theorem missingRequiredErrors_absent (sc : Schema) (data : List (String × Value)) :
    ∀ d ∈ missingRequiredErrors sc data, (data.lookup d.field).isNone = true := by
  intro d hd
  rw [missingRequiredErrors] at hd
  rw [List.mem_filterMap] at hd
  obtain ⟨p, _, hp⟩ := hd
  by_cases hcond : p.2.required ∧ (data.lookup p.1).isNone
  · rw [if_pos hcond] at hp
    cases hp
    exact hcond.2
  · rw [if_neg hcond] at hp
    cases hp

/-- Every error from the missing-required check concerns a required
declared field. -/
theorem missingRequiredErrors_member (sc : Schema) (data : List (String × Value)) :
    ∀ d ∈ missingRequiredErrors sc data,
      ∃ i, (d.field, i) ∈ sc.fields ∧ i.required = true := by
  intro d hd
  rw [missingRequiredErrors] at hd
  rw [List.mem_filterMap] at hd
  obtain ⟨p, hpmem, hp⟩ := hd
  by_cases hcond : p.2.required ∧ (data.lookup p.1).isNone
  · rw [if_pos hcond] at hp
    cases hp
    exact ⟨p.2, hpmem, hcond.1⟩
  · rw [if_neg hcond] at hp
    cases hp

/-- The four terminal shapes of `validate`, keyed on which stage decides:
type-check errors found. -/
theorem validate_eq_of_typeErrors (V : InputValidator) (raw : RawData)
    (ht : (typeCheckErrors V raw (sanitizeFieldsPure V raw V.schema.fields)).isEmpty
        = false) :
    validate V raw =
      { is_valid := false, model := Option.none
        errors := typeCheckErrors V raw (sanitizeFieldsPure V raw V.schema.fields)
        sanitized_data := sanitizeFieldsPure V raw V.schema.fields } := by
  unfold validate
  rw [sanitizeInput_eq_pure]
  simp only [ht, Bool.false_eq_true, if_false]

/-- Terminal shape of `validate` when the type pre-checks pass but required
fields are missing. -/
theorem validate_eq_of_missing (V : InputValidator) (raw : RawData)
    (ht : (typeCheckErrors V raw (sanitizeFieldsPure V raw V.schema.fields)).isEmpty
        = true)
    (hm : (missingRequiredErrors V.schema
        (modelDataOf V (sanitizeFieldsPure V raw V.schema.fields))).isEmpty = false) :
    validate V raw =
      { is_valid := false, model := Option.none
        errors := missingRequiredErrors V.schema
          (modelDataOf V (sanitizeFieldsPure V raw V.schema.fields))
        sanitized_data := sanitizeFieldsPure V raw V.schema.fields } := by
  unfold validate
  rw [sanitizeInput_eq_pure]
  simp only [ht, if_true, hm, Bool.false_eq_true, if_false]

/-- Terminal shape of `validate` on successful construction. -/
theorem validate_eq_of_ok (V : InputValidator) (raw : RawData) (m : ModelInst)
    (ht : (typeCheckErrors V raw (sanitizeFieldsPure V raw V.schema.fields)).isEmpty
        = true)
    (hm : (missingRequiredErrors V.schema
        (modelDataOf V (sanitizeFieldsPure V raw V.schema.fields))).isEmpty = true)
    (hc : V.construct (modelDataOf V (sanitizeFieldsPure V raw V.schema.fields))
        = Except.ok m) :
    validate V raw =
      { is_valid := true, model := some m, errors := []
        sanitized_data := sanitizeFieldsPure V raw V.schema.fields } := by
  unfold validate
  rw [sanitizeInput_eq_pure]
  simp only [ht, if_true, hm, hc]

/-- Terminal shape of `validate` when pydantic construction is rejected:
the underlying errors are routed through `mapPydanticError`. -/
theorem validate_eq_of_rejected (V : InputValidator) (raw : RawData)
    (pErrs : List PydanticError)
    (ht : (typeCheckErrors V raw (sanitizeFieldsPure V raw V.schema.fields)).isEmpty
        = true)
    (hm : (missingRequiredErrors V.schema
        (modelDataOf V (sanitizeFieldsPure V raw V.schema.fields))).isEmpty = true)
    (hc : V.construct (modelDataOf V (sanitizeFieldsPure V raw V.schema.fields))
        = Except.error pErrs) :
    validate V raw =
      { is_valid := false, model := Option.none
        errors := pErrs.map
          (mapPydanticError raw (sanitizeFieldsPure V raw V.schema.fields))
        sanitized_data := sanitizeFieldsPure V raw V.schema.fields } := by
  unfold validate
  rw [sanitizeInput_eq_pure]
  simp only [ht, if_true, hm, hc]

/-- Whatever `validate` decides, the returned `sanitized_data` is the full
output of the first (Preserving) pass — the size-failure branch that would
reset it to empty is unreachable because no `max_field_size` is ever
popped. -/
theorem validate_sanitized_data (V : InputValidator) (raw : RawData) :
    (validate V raw).sanitized_data = sanitizeFieldsPure V raw V.schema.fields := by
  by_cases ht : (typeCheckErrors V raw (sanitizeFieldsPure V raw V.schema.fields)).isEmpty
  · by_cases hm : (missingRequiredErrors V.schema
        (modelDataOf V (sanitizeFieldsPure V raw V.schema.fields))).isEmpty
    · cases hcon : V.construct (modelDataOf V (sanitizeFieldsPure V raw V.schema.fields)) with
      | ok m => rw [validate_eq_of_ok V raw m ht hm hcon]
      | error es => rw [validate_eq_of_rejected V raw es ht hm hcon]
    · rw [validate_eq_of_missing V raw ht (Bool.eq_false_iff.mpr hm)]
  · rw [validate_eq_of_typeErrors V raw (Bool.eq_false_iff.mpr ht)]

/-- Provided the construction collaborator never rejects with an empty
error list (pydantic's `e.errors()` is never empty), the three result
components decide together. -/
theorem validate_result_coherent (V : InputValidator) (raw : RawData)
    (hc : ∀ d es, V.construct d = Except.error es → es ≠ []) :
    ((validate V raw).is_valid = true ↔ (validate V raw).errors = [])
    ∧ ((validate V raw).is_valid = true ↔ (validate V raw).model.isSome = true) := by
  by_cases ht : (typeCheckErrors V raw (sanitizeFieldsPure V raw V.schema.fields)).isEmpty
  · by_cases hm : (missingRequiredErrors V.schema
        (modelDataOf V (sanitizeFieldsPure V raw V.schema.fields))).isEmpty
    · cases hcon : V.construct (modelDataOf V (sanitizeFieldsPure V raw V.schema.fields)) with
      | ok m =>
          rw [validate_eq_of_ok V raw m ht hm hcon]
          simp
      | error es =>
          rw [validate_eq_of_rejected V raw es ht hm hcon]
          simp [hc _ _ hcon]
    · rw [validate_eq_of_missing V raw ht (Bool.eq_false_iff.mpr hm)]
      have : missingRequiredErrors V.schema
          (modelDataOf V (sanitizeFieldsPure V raw V.schema.fields)) ≠ [] := by
        intro h0
        rw [h0] at hm
        exact hm rfl
      simp [this]
  · rw [validate_eq_of_typeErrors V raw (Bool.eq_false_iff.mpr ht)]
    have : typeCheckErrors V raw (sanitizeFieldsPure V raw V.schema.fields) ≠ [] := by
      intro h0
      rw [h0] at ht
      exact ht rfl
    simp [this]

/-- A key absent from the raw mapping yields no multi-values. -/
theorem getMultiValues_eq_nil_of_not_contains (raw : RawData) (f : String)
    (h : rawContains raw f = false) : getMultiValues raw f = [] := by
  cases raw with
  | multi entries =>
      simp only [rawContains, List.any_eq_false] at h
      simp only [getMultiValues, List.filterMap_eq_nil_iff]
      intro p hp
      simp [h p hp]
  | single entries =>
      simp only [rawContains] at h
      simp only [getMultiValues]
      cases hf : entries.lookup f with
      | none => rfl
      | some v => rw [hf] at h; simp at h

/-- Validator used to witness theorems whose hypothesis constrains the
construction collaborator: its constructor always succeeds, so the
hypothesis holds vacuously. -/
def stubValidator : InputValidator :=
  { schema := nameOnlySchema, config := {}, cleanPreserving := id
    cleanStripped := id, construct := fun _ => Except.ok [] }

/-- A 300-character input string. -/
def longName : String := String.mk (List.replicate 300 'A')

/-- C2 (code_bug): the claim says that with `max_field_size=256` a
300-character string makes `validate` fail with a single size-exceeded
error.  In the code, `SanitizationConfig` declares no `max_field_size`
field, so the popped limit is always `None` (first conjunct) and `validate`
accepts the 300-character name with no errors (third and fourth conjuncts)
— even though `_sanitize_value` would raise exactly the claimed error had
the limit reached it (second conjunct). -/
theorem c2_max_field_size_dead :
    (∀ cfg : SanitizationConfig, cfg.popMaxFieldSize = Option.none)
    ∧ sanitizeValue id (some 256) (Value.str longName)
        = Except.error "Field exceeds maximum size 256"
    ∧ (validate testUserValidator (RawData.single
        [("name", Value.str longName),
         ("friends", Value.list [Value.int 1])])).is_valid = true
    ∧ (validate testUserValidator (RawData.single
        [("name", Value.str longName),
         ("friends", Value.list [Value.int 1])])).errors = [] :=
  ⟨fun _ => rfl, rfl, rfl, rfl⟩

/-- C4 (confirmed): for every raw mapping, `is_valid` is true iff the error
list is empty iff the model is present — given that the construction
collaborator never rejects with an empty error list (pydantic's
`e.errors()` is never empty). -/
theorem c4_is_valid_invariant (V : InputValidator) (raw : RawData)
    (hc : ∀ d es, V.construct d = Except.error es → es ≠ []) :
    ((validate V raw).is_valid = true ↔ (validate V raw).errors = [])
    ∧ ((validate V raw).is_valid = true ↔ (validate V raw).model.isSome = true) :=
  validate_result_coherent V raw hc

theorem c4_is_valid_invariant_witness :
    ((validate stubValidator (RawData.single [])).is_valid = true
      ↔ (validate stubValidator (RawData.single [])).errors = [])
    ∧ ((validate stubValidator (RawData.single [])).is_valid = true
      ↔ (validate stubValidator (RawData.single [])).model.isSome = true) :=
  c4_is_valid_invariant stubValidator (RawData.single [])
    (fun _ _ h => Except.noConfusion h)

/-- C5 (corrected, counterexample): with schema `name: str` (required) and
an empty raw mapping, `validate` ends invalid with `sanitized_data` empty,
although no field exceeded any size limit — the only error is the
missing-required one.  This refutes "empty only when the very first field
processed itself exceeded the size limit". -/
theorem c5_partial_sanitized_counterexample :
    (validate nameOnlyValidator (RawData.single [])).is_valid = false
    ∧ (validate nameOnlyValidator (RawData.single [])).sanitized_data = []
    ∧ (validate nameOnlyValidator (RawData.single [])).errors
        = [{ field := "name", message := "Field required"
             input_value := Value.none, sanitized_value := Value.none }] :=
  ⟨rfl, rfl, rfl⟩

/-- C5 (amended): even when `validate` ends invalid, `sanitized_data` is
always the complete, successful output of the first sanitization pass — the
pass never fails because no `max_field_size` is ever popped — and it is
empty exactly when every declared field is skipped (not list-typed and raw
value reading as `None`), never because of a size failure. -/
theorem c5_sanitized_data_amended (V : InputValidator) (raw : RawData) :
    sanitizeInput V raw = Except.ok ((validate V raw).sanitized_data)
    ∧ ((validate V raw).sanitized_data = []
        ↔ V.schema.fields.all (fieldSkipped raw) = true) := by
  rw [validate_sanitized_data]
  exact ⟨sanitizeInput_eq_pure V raw, sanitizeFieldsPure_eq_nil_iff V raw _⟩

theorem c5_sanitized_data_amended_witness :
    (validate nameOnlyValidator (RawData.multi [])).sanitized_data = [] :=
  (c5_sanitized_data_amended nameOnlyValidator (RawData.multi [])).2.mpr (by decide)

/-- C7 (confirmed): `_parse_bool` maps the six accepted string forms
case-insensitively, returns any other string verbatim (no exception),
coerces native bools and ints by truthiness, and stringifies every other
input type. -/
theorem c7_parse_bool_spec :
    (∀ s : String, pyLower s = "true" ∨ pyLower s = "1" ∨ pyLower s = "yes" →
        parseBool (Value.str s) = Value.bool true)
    ∧ (∀ s : String, pyLower s = "false" ∨ pyLower s = "0" ∨ pyLower s = "no" →
        parseBool (Value.str s) = Value.bool false)
    ∧ (∀ s : String,
        pyLower s ∉ (["true", "1", "yes", "false", "0", "no"] : List String) →
        parseBool (Value.str s) = Value.str s)
    ∧ (∀ b : Bool, parseBool (Value.bool b) = Value.bool b)
    ∧ (∀ n : Int, parseBool (Value.int n) = Value.bool (decide (n ≠ 0)))
    ∧ parseBool Value.none = Value.str (pyStr Value.none)
    ∧ (∀ vs, parseBool (Value.list vs) = Value.str (pyStr (Value.list vs)))
    ∧ (∀ es, parseBool (Value.dict es) = Value.str (pyStr (Value.dict es))) := by
  refine ⟨?_, ?_, ?_, fun b => rfl, fun n => rfl, rfl, fun vs => rfl, fun es => rfl⟩
  · intro s h
    rcases h with h | h | h <;> simp [parseBool, h]
  · intro s h
    rcases h with h | h | h <;> simp [parseBool, h]
  · intro s h
    simp only [List.mem_cons, List.mem_singleton, not_or] at h
    obtain ⟨h1, h2, h3, h4, h5, h6⟩ := h
    simp [parseBool, h1, h2, h3, h4, h5, h6]

theorem c7_parse_bool_spec_witness :
    parseBool (Value.str "TRUE") = Value.bool true
    ∧ parseBool (Value.str "No") = Value.bool false
    ∧ parseBool (Value.str "maybe") = Value.str "maybe" :=
  ⟨c7_parse_bool_spec.1 "TRUE" (by decide),
   c7_parse_bool_spec.2.1 "No" (by decide),
   c7_parse_bool_spec.2.2.1 "maybe" (by decide)⟩

/-- C1 (corrected, counterexample): over schema `friends: list[int]`, the
input `{"friends": [True]}` passes the pre-checks (`isinstance(True, int)`
holds) but is rejected by pydantic at location `("friends", 0)`; `validate`
reports the error's `field` as the dot-join `"friends.0"`, which is not a
declared schema field name — refuting "the field is the first segment of
the location path". -/
theorem c1_error_field_counterexample :
    (validate friendsValidator
        (RawData.single [("friends", Value.list [Value.bool true])])).errors.map
      ValidationErrorDetail.field = ["friends.0"]
    ∧ "friends.0" ∉ friendsSchema.fields.map Prod.fst :=
  ⟨rfl, by decide⟩

/-- C1 (amended): when pydantic construction is rejected, `validate`
reports one `ValidationErrorDetail` per underlying error, whose `field` is
the dot-join of ALL segments of the error's location path (so a
multi-segment location yields a dotted path such as `friends.0`), not just
its first segment; only the attached `input_value` context is looked up by
the first dot-segment. -/
theorem c1_error_field_amended :
    (∀ (V : InputValidator) (raw : RawData) (pErrs : List PydanticError),
      (typeCheckErrors V raw (sanitizeFieldsPure V raw V.schema.fields)).isEmpty = true →
      (missingRequiredErrors V.schema
          (modelDataOf V (sanitizeFieldsPure V raw V.schema.fields))).isEmpty = true →
      V.construct (modelDataOf V (sanitizeFieldsPure V raw V.schema.fields))
          = Except.error pErrs →
      (validate V raw).errors
        = pErrs.map (mapPydanticError raw (sanitizeFieldsPure V raw V.schema.fields)))
    ∧ (∀ (raw : RawData) (s : List (String × Value)) (e : PydanticError),
      e.loc ≠ [] → dotJoin e.loc ≠ "general" →
      (mapPydanticError raw s e).field = dotJoin e.loc
      ∧ (mapPydanticError raw s e).input_value
          = rawGet raw (firstDotSegment (dotJoin e.loc))) := by
  constructor
  · intro V raw pErrs ht hm hcon
    rw [validate_eq_of_rejected V raw pErrs ht hm hcon]
  · intro raw s e hloc hgen
    have hempty : e.loc.isEmpty = false := by
      cases hl : e.loc with
      | nil => exact absurd hl hloc
      | cons a l => rfl
    refine ⟨?_, ?_⟩ <;> simp [mapPydanticError, hempty, hgen]

theorem c1_error_field_amended_witness :
    (validate friendsValidator
        (RawData.single [("friends", Value.list [Value.bool true])])).errors
      = [mapPydanticError (RawData.single [("friends", Value.list [Value.bool true])])
          [("friends", Value.list [Value.bool true])]
          { loc := [LocStep.fld "friends", LocStep.idx 0]
            msg := "Input should be a valid integer" }]
    ∧ (mapPydanticError (RawData.single [("friends", Value.list [Value.bool true])])
        [("friends", Value.list [Value.bool true])]
        { loc := [LocStep.fld "friends", LocStep.idx 0]
          msg := "Input should be a valid integer" }).field = "friends.0" := by
  constructor
  · exact c1_error_field_amended.1 friendsValidator
      (RawData.single [("friends", Value.list [Value.bool true])])
      [{ loc := [LocStep.fld "friends", LocStep.idx 0]
         msg := "Input should be a valid integer" }] rfl rfl rfl
  · exact ((c1_error_field_amended.2
      (RawData.single [("friends", Value.list [Value.bool true])])
      [("friends", Value.list [Value.bool true])]
      { loc := [LocStep.fld "friends", LocStep.idx 0]
        msg := "Input should be a valid integer" }
      (by decide) (by decide)).1).trans (by decide)

/-- C3 (corrected, counterexample): over schema `active: bool` (required)
with the preserving cleaner `dropAngleChars` standing in for nh3, the raw
string `"<b>x</b>"` supplied for the boolean-typed field lands in the
returned `sanitized_data` verbatim — it never passes through the
HTML-sanitization policy, although that policy would have altered it. -/
theorem c3_sanitized_data_counterexample :
    (validate boolOnlyValidator
        (RawData.single [("active", Value.str "<b>x</b>")])).sanitized_data.lookup
      "active" = some (Value.str "<b>x</b>")
    ∧ dropAngleChars "<b>x</b>" ≠ "<b>x</b>"
    ∧ boolOnlyValidator.cleanPreserving = dropAngleChars :=
  ⟨rfl, by decide, rfl⟩

/-- C3 (amended): with distinct declared names, every value in the
returned `sanitized_data` is the output of `_sanitize_value` under the
preserving policy — except for boolean-typed fields, whose value is the
`_parse_bool` image of the raw value and may be the raw, unsanitized
string. -/
theorem c3_sanitized_data_amended (V : InputValidator) (raw : RawData)
    (f : String) (i : FieldInfo) (v : Value)
    (hnodup : (V.schema.fields.map Prod.fst).Nodup)
    (hmem : (f, i) ∈ V.schema.fields)
    (hlook : (validate V raw).sanitized_data.lookup f = some v) :
    (isListField i.ftype = true
      ∧ v = Value.list (sanitizeValuePureList V.cleanPreserving (getMultiValues raw f)))
    ∨ (i.ftype = FieldType.fBool ∧ v = parseBool (rawGet raw f))
    ∨ sanitizeValue V.cleanPreserving V.config.popMaxFieldSize (rawGet raw f)
        = Except.ok v := by
  rw [validate_sanitized_data] at hlook
  rw [sanitizeFieldsPure_lookup V raw V.schema.fields f i hnodup hmem] at hlook
  by_cases hl : isListField i.ftype
  · rw [if_pos hl] at hlook
    exact Or.inl ⟨hl, (Option.some.injEq .. ▸ hlook).symm⟩
  · rw [if_neg hl] at hlook
    by_cases hn : (rawGet raw f).isNone
    · rw [if_pos hn] at hlook
      cases hlook
    · rw [if_neg hn] at hlook
      by_cases hb : i.ftype = FieldType.fBool
      · rw [if_pos hb] at hlook
        exact Or.inr (Or.inl ⟨hb, (Option.some.injEq .. ▸ hlook).symm⟩)
      · rw [if_neg hb] at hlook
        have hv : v = sanitizeValuePure V.cleanPreserving (rawGet raw f) :=
          (Option.some.inj hlook).symm
        refine Or.inr (Or.inr ?_)
        show sanitizeValue V.cleanPreserving Option.none (rawGet raw f) = Except.ok v
        rw [hv, sanitizeValue_eq_pure]

theorem c3_sanitized_data_amended_witness :
    (isListField FieldType.fBool = true
      ∧ Value.str "<b>x</b>" = Value.list (sanitizeValuePureList
          boolOnlyValidator.cleanPreserving (getMultiValues
            (RawData.single [("active", Value.str "<b>x</b>")]) "active")))
    ∨ (FieldType.fBool = FieldType.fBool
      ∧ Value.str "<b>x</b>" = parseBool (rawGet
          (RawData.single [("active", Value.str "<b>x</b>")]) "active"))
    ∨ sanitizeValue boolOnlyValidator.cleanPreserving
        boolOnlyValidator.config.popMaxFieldSize
        (rawGet (RawData.single [("active", Value.str "<b>x</b>")]) "active")
      = Except.ok (Value.str "<b>x</b>") :=
  c3_sanitized_data_amended boolOnlyValidator
    (RawData.single [("active", Value.str "<b>x</b>")])
    "active" { ftype := FieldType.fBool, required := true } (Value.str "<b>x</b>")
    (by decide) (List.mem_singleton.mpr rfl) rfl

/-- C6 (confirmed): `validate` is a total function into `ValidationResult`
— in the embedding no exception escapes — and each per-input failure class
surfaces as `ValidationErrorDetail` entries: an invalid result always
carries errors (first conjunct, given pydantic never rejects with an empty
error list); a bad boolean, a bad list item, a missing required field and a
schema rejection each yield the expected field-addressed entries (middle
conjuncts); and the size-limit class is the `ValueError` of
`_sanitize_value` (last conjunct), which the handler would report as a
catch-all `general` entry. -/
theorem c6_failures_captured :
    (∀ (V : InputValidator) (raw : RawData),
      (∀ d es, V.construct d = Except.error es → es ≠ []) →
      (validate V raw).is_valid = false → (validate V raw).errors ≠ [])
    ∧ (validate testUserValidator (RawData.single
        [("name", Value.str "John"), ("active", Value.str "nope")])).errors
      = [{ field := "active"
           message := "Value \x27nope\x27 could not be parsed to a boolean"
           input_value := Value.str "nope", sanitized_value := Value.str "nope" }]
    ∧ (validate testUserValidator (RawData.single
        [("name", Value.str "John"), ("friends", Value.list [Value.str "abc"])])).errors
      = [{ field := "friends"
           message := "Value \x27abc\x27 at index 0 could not be parsed to an integer"
           input_value := Value.list [Value.str "abc"]
           sanitized_value := Value.list [Value.str "abc"] }]
    ∧ (validate testUserValidator (RawData.single [])).errors
      = [{ field := "name", message := "Field required"
           input_value := Value.none, sanitized_value := Value.none }]
    ∧ (validate testUserValidator (RawData.single
        [("name", Value.int 5), ("friends", Value.list [])])).errors
      = [{ field := "name", message := "Input should be a valid string"
           input_value := Value.int 5, sanitized_value := Value.int 5 }]
    ∧ sanitizeValue id (some 5) (Value.str "abcdef")
      = Except.error "Field exceeds maximum size 5" := by
  refine ⟨?_, rfl, rfl, rfl, rfl, rfl⟩
  intro V raw hc hinvalid h0
  have := (validate_result_coherent V raw hc).1.mpr h0
  rw [hinvalid] at this
  cases this

theorem c6_failures_captured_witness :
    (validate stubValidator (RawData.multi [("name", Value.none)])).errors ≠ [] :=
  c6_failures_captured.1 stubValidator (RawData.multi [("name", Value.none)])
    (fun _ _ h => Except.noConfusion h) rfl

/-- C9 (confirmed): the type-check phase is fail-collect.  Generically,
whenever the pre-checks find anything, `validate` returns exactly the full
list collected over all declared fields (first conjunct).  Concretely, an
input with two bad `list[int]` items and one bad boolean yields all three
errors in one call — both offending indices of the list field and the
boolean field — and the result is invalid. -/
theorem c9_fail_collect :
    (∀ (V : InputValidator) (raw : RawData),
      (typeCheckErrors V raw (sanitizeFieldsPure V raw V.schema.fields)).isEmpty
          = false →
      (validate V raw).errors
        = typeCheckErrors V raw (sanitizeFieldsPure V raw V.schema.fields))
    ∧ (validate testUserValidator (RawData.multi
        [("name", Value.str "John"), ("friends", Value.str "x"),
         ("friends", Value.str "y"), ("active", Value.str "not_bool")])).errors
      = [{ field := "friends"
           message := "Value \x27x\x27 at index 0 could not be parsed to an integer"
           input_value := Value.str "x"
           sanitized_value := Value.list [Value.str "x", Value.str "y"] },
         { field := "friends"
           message := "Value \x27y\x27 at index 1 could not be parsed to an integer"
           input_value := Value.str "x"
           sanitized_value := Value.list [Value.str "x", Value.str "y"] },
         { field := "active"
           message := "Value \x27not_bool\x27 could not be parsed to a boolean"
           input_value := Value.str "not_bool"
           sanitized_value := Value.str "not_bool" }]
    ∧ (validate testUserValidator (RawData.multi
        [("name", Value.str "John"), ("friends", Value.str "x"),
         ("friends", Value.str "y"), ("active", Value.str "not_bool")])).is_valid
      = false := by
  refine ⟨?_, rfl, rfl⟩
  intro V raw h
  exact congrArg ValidationResult.errors (validate_eq_of_typeErrors V raw h)

theorem c9_fail_collect_witness :
    (validate testUserValidator (RawData.multi [("friends", Value.str "z")])).errors
      = typeCheckErrors testUserValidator (RawData.multi [("friends", Value.str "z")])
          (sanitizeFieldsPure testUserValidator
            (RawData.multi [("friends", Value.str "z")])
            testUserValidator.schema.fields) :=
  c9_fail_collect.1 testUserValidator (RawData.multi [("friends", Value.str "z")]) rfl

/-- C10 (confirmed): with distinct declared names, the returned
`sanitized_data` always holds every declared list-typed field as a list (an
empty one when the key is absent), so the missing-required check never
reports a required list-typed field as missing. -/
theorem c10_list_fields_never_missing (V : InputValidator) (raw : RawData)
    (f : String) (i : FieldInfo)
    (hnodup : (V.schema.fields.map Prod.fst).Nodup)
    (hmem : (f, i) ∈ V.schema.fields)
    (hlist : isListField i.ftype = true) :
    (validate V raw).sanitized_data.lookup f
        = some (Value.list
            (sanitizeValuePureList V.cleanPreserving (getMultiValues raw f)))
    ∧ (rawContains raw f = false →
        (validate V raw).sanitized_data.lookup f = some (Value.list []))
    ∧ (∀ d ∈ missingRequiredErrors V.schema
          (modelDataOf V ((validate V raw).sanitized_data)), d.field ≠ f) := by
  rw [validate_sanitized_data]
  have hlook := sanitizeFieldsPure_lookup V raw V.schema.fields f i hnodup hmem
  rw [if_pos hlist] at hlook
  refine ⟨hlook, ?_, ?_⟩
  · intro hnc
    rw [hlook, getMultiValues_eq_nil_of_not_contains raw f hnc]
    rfl
  · intro d hd he
    have habs := missingRequiredErrors_absent V.schema
      (modelDataOf V (sanitizeFieldsPure V raw V.schema.fields)) d hd
    rw [he, modelDataOf_lookup, hlook] at habs
    simp at habs

theorem c10_list_fields_never_missing_witness :
    (validate friendsValidator (RawData.single [])).sanitized_data.lookup "friends"
        = some (Value.list (sanitizeValuePureList friendsValidator.cleanPreserving
            (getMultiValues (RawData.single []) "friends")))
    ∧ (rawContains (RawData.single []) "friends" = false →
        (validate friendsValidator (RawData.single [])).sanitized_data.lookup "friends"
          = some (Value.list []))
    ∧ (∀ d ∈ missingRequiredErrors friendsValidator.schema
          (modelDataOf friendsValidator
            ((validate friendsValidator (RawData.single [])).sanitized_data)),
        d.field ≠ "friends") :=
  c10_list_fields_never_missing friendsValidator (RawData.single []) "friends"
    { ftype := FieldType.fListInt, required := true } (by decide)
    (List.mem_singleton.mpr rfl) rfl

/-- C8 (confirmed): over schema `friends: list[int]`, a multi-valued
mapping with repeated string entries `"friends"→"1","friends"→"2"` and a
single-valued mapping with the native list `"friends"→[1,2]` validate to
identical coerced models, namely `friends = [1, 2]` — for any cleaner
collaborators that leave the plain digit strings unchanged (as nh3 does on
markup-free text). -/
theorem c8_multi_value_equivalence (cp cs : String → String)
    (h1 : cp "1" = "1") (h2 : cp "2" = "2")
    (h3 : cs "1" = "1") (h4 : cs "2" = "2") :
    (validate (mkValidator friendsSchema cp cs)
        (RawData.multi [("friends", Value.str "1"), ("friends", Value.str "2")])).model
      = (validate (mkValidator friendsSchema cp cs)
        (RawData.single [("friends", Value.list [Value.int 1, Value.int 2])])).model
    ∧ (validate (mkValidator friendsSchema cp cs)
        (RawData.multi [("friends", Value.str "1"), ("friends", Value.str "2")])).model
      = some [("friends", Value.list [Value.int 1, Value.int 2])] := by
  have hS : sanitizeFieldsPure (mkValidator friendsSchema cp cs)
      (RawData.multi [("friends", Value.str "1"), ("friends", Value.str "2")])
      (mkValidator friendsSchema cp cs).schema.fields
      = [("friends", Value.list [Value.str "1", Value.str "2"])] := by
    simp [mkValidator, friendsSchema, sanitizeFieldsPure, sanitizeValuePureList,
      sanitizeValuePure, getMultiValues, isListField, h1, h2]
  have hMD : modelDataOf (mkValidator friendsSchema cp cs)
      [("friends", Value.list [Value.str "1", Value.str "2"])]
      = [("friends", Value.list [Value.str "1", Value.str "2"])] := by
    simp [modelDataOf, mkValidator, cleanForModel, cleanForModelList, h3, h4]
  have hmulti := validate_eq_of_ok (mkValidator friendsSchema cp cs)
      (RawData.multi [("friends", Value.str "1"), ("friends", Value.str "2")])
      [("friends", Value.list [Value.int 1, Value.int 2])]
      (by rw [hS]; rfl) (by rw [hS, hMD]; rfl) (by rw [hS, hMD]; rfl)
  rw [hmulti]
  exact ⟨rfl, rfl⟩

theorem c8_multi_value_equivalence_witness :
    (validate friendsValidator
        (RawData.multi [("friends", Value.str "1"), ("friends", Value.str "2")])).model
      = some [("friends", Value.list [Value.int 1, Value.int 2])] :=
  (c8_multi_value_equivalence id id rfl rfl rfl rfl).2
